import Mathlib

/-!
Verification of the short-uploader script (`.github/scripts/upload_shorts_to_r2.py`).

The script is sequential I/O glue: read configuration from the environment,
load a JSON analysis sidecar, enumerate `shorts/*.mp4`, and for each file parse
metadata from the filename, skip already-uploaded clips, upload to R2 and
upsert a database row, then report a summary and exit 0 iff at least one
upload succeeded.

We embed the script shallowly: Python string operations are modelled at the
character-list level by structural recursion (so all definitions evaluate),
the database session is a list of rows with buffered writes applied at
commit, and external effects (S3 put, commit) are fault-injectable booleans
carried by the run environment.  Exceptions are modelled as explicit outcome
constructors (`raised`, `crash`, the abort constructors of `RunResult`).
-/

namespace ShortUploader

/-- Model of Python `str.replace('.mp4', '')`: remove every non-overlapping
occurrence of `.mp4`, scanning left to right. -/
def removeMp4 : List Char → List Char
  | [] => []
  | '.' :: 'm' :: 'p' :: '4' :: rest => removeMp4 rest
  | c :: rest => c :: removeMp4 rest

/-- Model of Python `str.split(sep)` for a one-character separator: splits at
every occurrence of the separator and keeps empty fragments, so the result is
always non-empty (`''.split('_') == ['']`). -/
def pySplit (sep : Char) : List Char → List (List Char)
  | [] => [[]]
  | c :: rest =>
    if c = sep then [] :: pySplit sep rest
    else
      match pySplit sep rest with
      | [] => [[c]]
      | t :: ts => (c :: t) :: ts

/-- Model of Python `sep.join(parts)`. -/
def pyJoin (sep : List Char) : List (List Char) → List Char
  | [] => []
  | [x] => x
  | x :: y :: xs => x ++ sep ++ pyJoin sep (y :: xs)

/-- ASCII whitespace accepted (and stripped) by Python `int()`. -/
def isPyWhitespace (c : Char) : Bool :=
  c == ' ' || c == '\t' || c == '\n' || c == '\x0d' || c == '\x0b' || c == '\x0c'

/-- Strip leading and trailing whitespace, as Python `int()` does before
parsing the digits. -/
def stripWs (s : List Char) : List Char :=
  ((s.dropWhile isPyWhitespace).reverse.dropWhile isPyWhitespace).reverse

/-- Value of a digit string, most significant digit first. -/
def digitsVal (ds : List Char) : Nat :=
  ds.foldl (fun a c => 10 * a + (c.toNat - 48)) 0

/-- Parse a non-empty all-digit string; `none` models a `ValueError`. -/
def digitsToNat (ds : List Char) : Option Nat :=
  if ds.isEmpty then none
  else if ds.all Char.isDigit then some (digitsVal ds) else none

/-- Model of Python `int()` applied to a separator-free string token:
optional surrounding whitespace, an optional sign, then one or more decimal
digits; anything else raises `ValueError`, modelled as `none`. -/
def pyInt (s : List Char) : Option Int :=
  match stripWs s with
  | [] => none
  | c :: ds =>
    if c = '-' then (digitsToNat ds).map (fun m => -(m : Int))
    else if c = '+' then (digitsToNat ds).map (fun m => (m : Int))
    else (digitsToNat (c :: ds)).map (fun m => (m : Int))

/-- Model of Python list indexing `l[i]` with negative-index wraparound;
`none` models an `IndexError`. -/
def pyListGet {α : Type} (l : List α) (i : Int) : Option α :=
  if 0 ≤ i then l.get? i.toNat
  else if 0 ≤ (l.length : Int) + i then l.get? ((l.length : Int) + i).toNat
  else none

/-- One entry of the `segments` list of the analysis JSON.  Each field may be
absent; the script reads them with `dict.get` and a default.  Segment times
are modelled as integers: the script only ever subtracts them, so the
claims under verification do not depend on fractional values. -/
structure SegmentMeta where
  startTime? : Option Int
  endTime? : Option Int
  description? : Option String
deriving Repr, DecidableEq

/-- The description the script extracts: `segment.get('description', '')`. -/
def SegmentMeta.descriptionGet (s : SegmentMeta) : String :=
  s.description?.getD ""

/-- The duration the script computes:
`segment.get('end', 0) - segment.get('start', 0)`. -/
def SegmentMeta.durationGet (s : SegmentMeta) : Int :=
  s.endTime?.getD 0 - s.startTime?.getD 0

/-- The dictionary returned by `get_video_info_from_filename` on success. -/
structure VideoInfo where
  video_id : String
  title : String
  description : String
  duration : Int
deriving Repr, DecidableEq

/-- Outcome of `get_video_info_from_filename`: an uncaught exception
(`ValueError` from `int`, or `IndexError` from the segment lookup), the
Python value `None`, or the metadata dictionary. -/
inductive ParseOutcome where
  | raised
  | noneRes
  | parsed (info : VideoInfo)
deriving Repr, DecidableEq

/-- Model of `get_video_info_from_filename(filename, analysis_segments)`, lines 31-58:
strip `.mp4`, split on `_`; fewer than three tokens yields `None`; otherwise
the first token is the video id, `int` of the last token is the segment
number, the interior tokens joined with spaces are the title, and if the
segment number is at most the segment count, description and duration are
read from `analysis_segments[segment_num - 1]`, else they default. -/
def get_video_info_from_filename (filename : String)
    (analysis_segments : List SegmentMeta) : ParseOutcome :=
  let parts := pySplit '_' (removeMp4 filename.data)
  if parts.length < 3 then .noneRes
  else
    let video_id := String.mk (parts.headD [])
    match pyInt (parts.getLastD []) with
    | none => .raised
    | some segment_num =>
      let title := String.mk (pyJoin [' '] ((parts.drop 1).dropLast))
      if segment_num ≤ (analysis_segments.length : Int) then
        match pyListGet analysis_segments (segment_num - 1) with
        | none => .raised
        | some seg =>
          .parsed ⟨video_id, title, seg.descriptionGet, seg.durationGet⟩
      else
        .parsed ⟨video_id, title, "", 0⟩

/-- A row of the `videos` table, restricted to the columns the script reads
or writes. -/
structure DbRow where
  video_id : String
  filename : String
  title : String
  description : String
  duration : Int
  r2_url : Option String
  r2_key : Option String
deriving Repr, DecidableEq

/-- The database as the script observes it: the rows of the `videos` table. -/
abbrev Db := List DbRow

/-- Model of `session.query(Video).filter_by(video_id=vid).first()`. -/
def dbFind (db : Db) (vid : String) : Option DbRow :=
  db.find? (fun r => r.video_id == vid)

/-- Update the first row with the given `video_id`, modelling mutation of the
ORM object returned by `first()`. -/
def dbUpdateFirst (db : Db) (vid : String) (f : DbRow → DbRow) : Db :=
  match db with
  | [] => []
  | r :: rs => if r.video_id == vid then f r :: rs else r :: dbUpdateFirst rs vid f

/-- Python truthiness of a nullable string column: truthy iff present and
non-empty. -/
def pyTruthyStr : Option String → Bool
  | none => false
  | some s => s != ""

/-- Python f-string interpolation of a possibly-`None` value. -/
def pyFStr : Option String → String
  | none => "None"
  | some s => s

/-- Model of Python `f.endswith('.mp4')` (line 107), at the character level
so that it evaluates inside the kernel. -/
def endsWithMp4 (f : String) : Bool :=
  ('.' :: 'm' :: 'p' :: '4' :: []).isSuffixOf f.data

/-- The environment and external world a run executes against.  The
configuration fields model `os.environ.get`; the remaining fields inject the
behaviour of the external collaborators (database server, filesystem, object
store). -/
structure RunEnv where
  video_id? : Option String
  r2_access_key? : Option String
  r2_secret_key? : Option String
  r2_endpoint? : Option String
  r2_bucket? : Option String
  r2_public_url? : Option String
  database_url? : Option String
  /-- whether `create_engine` / `Session()` succeeds (lines 90-97). -/
  dbConnectOk : Bool
  /-- content of `temp/{video_id}/{video_id}_analysis.json`: `none` means the
  file is missing (`open` raises), `some none` means invalid JSON
  (`json.load` raises), `some (some segs)` is the parsed segments list. -/
  analysis? : Option (Option (List SegmentMeta))
  /-- result of `os.listdir("shorts")`: `none` means the directory is missing. -/
  shortsDir? : Option (List String)
  /-- whether `s3_client.put_object` succeeds for a given filename. -/
  putOk : String → Bool
  /-- whether `session.commit()` succeeds for a given filename. -/
  commitOk : String → Bool

/-- Mutable state of the upload loop: database rows, object-store keys
written so far, the three counters, and counts of external calls made. -/
structure LoopState where
  db : Db
  store : List String
  uploaded : Nat
  skipped : Nat
  failed : Nat
  putCalls : Nat
  queryCalls : Nat
  commitCalls : Nat
deriving Repr, DecidableEq

/-- The suffix used for the derived clip identifier (line 129):
`filename.split('_')[-1].replace('.mp4', '')`. -/
def shortsFilenameSuffix (filename : String) : String :=
  String.mk (removeMp4 ((pySplit '_' filename.data).getLastD []))

/-- The object key (line 140): `videos/{filename}`. -/
def uploadObjectKey (filename : String) : String :=
  "videos/" ++ filename

/-- The public URL (line 151): `{r2_public_url}/{object_key}`. -/
def publicUrl (env : RunEnv) (object_key : String) : String :=
  pyFStr env.r2_public_url? ++ "/" ++ object_key

/-- Result of processing one clip: either the loop continues with the new
state, or an uncaught exception escaped (only the metadata parse can raise
outside the `try` block) and the whole run crashes. -/
inductive ClipStep where
  | ok (s : LoopState)
  | crash (s : LoopState)
deriving Repr, DecidableEq

/-- The `try` block of the loop (lines 138-181): put the object, then under
the same exception handler add or update the row and commit.  A failed put or
a failed commit is caught, the session is rolled back (buffered row changes
are discarded, so the database is unchanged) and the clip is counted as
failed. -/
def uploadAndUpsert (env : RunEnv) (st : LoopState) (filename : String)
    (info : VideoInfo) (short_video_id : String) (existing : Option DbRow) :
    LoopState :=
  let object_key := uploadObjectKey filename
  let st := { st with putCalls := st.putCalls + 1 }
  if !env.putOk filename then
    { st with failed := st.failed + 1 }
  else
    let st := { st with store := st.store ++ [object_key] }
    let r2_url := publicUrl env object_key
    let pendingDb :=
      match existing with
      | some _ =>
        dbUpdateFirst st.db short_video_id (fun r =>
          { r with r2_url := some r2_url, r2_key := some object_key })
      | none =>
        st.db ++ [{ video_id := short_video_id, filename := filename,
                    title := info.title, description := info.description,
                    duration := info.duration, r2_url := some r2_url,
                    r2_key := some object_key }]
    let st := { st with commitCalls := st.commitCalls + 1 }
    if env.commitOk filename then
      { st with db := pendingDb, uploaded := st.uploaded + 1 }
    else
      { st with failed := st.failed + 1 }

/-- One iteration of the loop (lines 115-183): parse the filename (an
exception here is uncaught and crashes the run), on `None` skip; otherwise
derive the clip identifier, query the database, skip when the found row
already has a truthy `r2_url`, and otherwise upload and upsert. -/
def processClip (env : RunEnv) (segs : List SegmentMeta) (st : LoopState)
    (filename : String) : ClipStep :=
  match get_video_info_from_filename filename segs with
  | .raised => .crash st
  | .noneRes => .ok { st with skipped := st.skipped + 1 }
  | .parsed info =>
    let short_video_id :=
      info.video_id ++ "_short_" ++ shortsFilenameSuffix filename
    let st := { st with queryCalls := st.queryCalls + 1 }
    match dbFind st.db short_video_id with
    | some row =>
      if pyTruthyStr row.r2_url then
        .ok { st with skipped := st.skipped + 1 }
      else
        .ok (uploadAndUpsert env st filename info short_video_id (some row))
    | none =>
      .ok (uploadAndUpsert env st filename info short_video_id none)

/-- Result of running the loop over the listed files. -/
inductive RunLoopResult where
  | crashed (s : LoopState)
  | finished (s : LoopState)
deriving Repr, DecidableEq

/-- The loop over `short_files`, stopping early when an iteration raises. -/
def runLoop (env : RunEnv) (segs : List SegmentMeta) :
    LoopState → List String → RunLoopResult
  | st, [] => .finished st
  | st, f :: fs =>
    match processClip env segs st f with
    | .crash s => .crashed s
    | .ok s => runLoop env segs s fs

/-- How a whole run of `upload_shorts` terminates. -/
inductive RunResult where
  /-- the `sys.exit(1)` at line 74 after the missing-environment-variable check. -/
  | configExit
  /-- the `sys.exit(1)` at line 97 after a database connection error. -/
  | dbConnectExit
  /-- uncaught exception opening or parsing the analysis JSON (lines
  100-102); the session is open and is never closed. -/
  | analysisCrash
  /-- uncaught exception from `os.listdir` on a missing `shorts` directory
  (line 107); the session is open and is never closed. -/
  | listdirCrash
  /-- uncaught exception inside the loop; the session is open and is never
  closed. -/
  | loopCrash (s : LoopState)
  /-- normal completion: `session.close()` at line 185 ran and the process
  exits via `sys.exit(0 if uploaded > 0 else 1)`. -/
  | completed (s : LoopState)
deriving Repr, DecidableEq

/-- The line-72 check `not all([video_id, r2_access_key, r2_secret_key,
r2_endpoint, r2_bucket, database_url])`; an unset or empty variable is
falsy.  `R2_PUBLIC_URL` is not checked. -/
def requiredPresent (env : RunEnv) : Bool :=
  pyTruthyStr env.video_id? && pyTruthyStr env.r2_access_key? &&
  pyTruthyStr env.r2_secret_key? && pyTruthyStr env.r2_endpoint? &&
  pyTruthyStr env.r2_bucket? && pyTruthyStr env.database_url?

/-- The exact message printed at line 73 when required configuration is
missing; it is a constant and names no environment variable. -/
def configErrorMessage : String :=
  "❌ Missing required environment variables"

/-- The required environment variable names, paired with their accessors. -/
def requiredKeyNames : List (String × (RunEnv → Option String)) :=
  [("VIDEO_ID", RunEnv.video_id?), ("R2_ACCESS_KEY", RunEnv.r2_access_key?),
   ("R2_SECRET_KEY", RunEnv.r2_secret_key?), ("R2_ENDPOINT", RunEnv.r2_endpoint?),
   ("R2_BUCKET", RunEnv.r2_bucket?), ("DATABASE_URL", RunEnv.database_url?)]

/-- The names of the required environment variables that are absent or empty
in a given environment. -/
def missingRequiredKeys (env : RunEnv) : List String :=
  (requiredKeyNames.filter (fun p => !pyTruthyStr (p.2 env))).map Prod.fst

/-- Whether `sub` occurs as a contiguous substring. -/
def containsSub (hay sub : List Char) : Bool :=
  match hay with
  | [] => sub.isEmpty
  | _ :: rest => sub.isPrefixOf hay || containsSub rest sub

/-- The loop state at loop entry (lines 111-113 plus the session's view of
the database). -/
def initialLoopState (db : Db) : LoopState :=
  { db := db, store := [], uploaded := 0, skipped := 0, failed := 0,
    putCalls := 0, queryCalls := 0, commitCalls := 0 }

/-- Model of `upload_shorts()` (lines 60-197) against an environment and an initial
database: check configuration, connect, load the analysis sidecar, list the
`shorts` directory, filter to `.mp4`, run the loop, and report. -/
def upload_shorts (env : RunEnv) (db : Db) : RunResult :=
  if !requiredPresent env then .configExit
  else if !env.dbConnectOk then .dbConnectExit
  else
    match env.analysis? with
    | none => .analysisCrash
    | some none => .analysisCrash
    | some (some segs) =>
      match env.shortsDir? with
      | none => .listdirCrash
      | some allFiles =>
        let short_files := allFiles.filter (fun f => endsWithMp4 f)
        match runLoop env segs (initialLoopState db) short_files with
        | .crashed s => .loopCrash s
        | .finished s => .completed s

/-- The process exit status (line 201, `sys.exit(0 if success else 1)`, with
`success = uploaded > 0`; every abort path exits 1, either through
`sys.exit(1)` or through Python's status 1 on an uncaught exception). -/
def exitCode : RunResult → Nat
  | .configExit => 1
  | .dbConnectExit => 1
  | .analysisCrash => 1
  | .listdirCrash => 1
  | .loopCrash _ => 1
  | .completed s => if s.uploaded > 0 then 0 else 1

/-- Whether the run created the session (line 93 executed). -/
def sessionOpened : RunResult → Bool
  | .configExit => false
  | .dbConnectExit => false
  | .analysisCrash => true
  | .listdirCrash => true
  | .loopCrash _ => true
  | .completed _ => true

/-- Whether `session.close()` (line 185) executed: it is not in a `finally`
block, so it runs only when the loop finishes without an uncaught
exception. -/
def sessionClosed : RunResult → Bool
  | .completed _ => true
  | _ => false

/-- Number of `put_object` calls the run performed. -/
def putCallsOf : RunResult → Nat
  | .loopCrash s => s.putCalls
  | .completed s => s.putCalls
  | _ => 0

/-- Number of database queries the run performed. -/
def queryCallsOf : RunResult → Nat
  | .loopCrash s => s.queryCalls
  | .completed s => s.queryCalls
  | _ => 0

/-- Number of `session.commit()` calls the run performed. -/
def commitCallsOf : RunResult → Nat
  | .loopCrash s => s.commitCalls
  | .completed s => s.commitCalls
  | _ => 0

/-- Number of uploads the run recorded. -/
def uploadedOf : RunResult → Nat
  | .loopCrash s => s.uploaded
  | .completed s => s.uploaded
  | _ => 0

/-- The database contents when the run terminates. -/
def finalDb (db : Db) : RunResult → Db
  | .loopCrash s => s.db
  | .completed s => s.db
  | _ => db

/-- The skip condition the loop applies at lines 132-136: the row found by
the derived clip identifier already carries a truthy `r2_url`. -/
def alreadyUploadedInDb (db : Db) (sid : String) : Bool :=
  ((dbFind db sid).map (fun r => pyTruthyStr r.r2_url)).getD false

/-- Whether a filename would be recorded as skipped by the loop against a
given database: either it fails to parse (returning `None`), or its row is
already uploaded.  A filename whose parse raises satisfies neither arm. -/
def clipWouldSkip (db : Db) (segs : List SegmentMeta) (f : String) : Bool :=
  match get_video_info_from_filename f segs with
  | .raised => false
  | .noneRes => true
  | .parsed info =>
    alreadyUploadedInDb db (info.video_id ++ "_short_" ++ shortsFilenameSuffix f)

/-- The video id the parser extracts (line 39): the first underscore token of
the extension-stripped filename. -/
def parsedVideoId (f : String) : String :=
  String.mk ((pySplit '_' (removeMp4 f.data)).headD [])

/-- The title the parser builds (lines 41-42): the interior underscore tokens
of the extension-stripped filename, joined with spaces. -/
def parsedTitle (f : String) : String :=
  String.mk (pyJoin [' '] (((pySplit '_' (removeMp4 f.data)).drop 1).dropLast))

/-- Concrete segment metadata used to instantiate the theorems. -/
def sampleSegs : List SegmentMeta :=
  [{ startTime? := some 1, endTime? := some 5, description? := some "first part" },
   { startTime? := some 5, endTime? := some 9, description? := some "second part" }]

/-- Concrete fully-configured environment used to instantiate the theorems. -/
def sampleEnv : RunEnv :=
  { video_id? := some "vid1", r2_access_key? := some "ak",
    r2_secret_key? := some "sk", r2_endpoint? := some "https://r2.example",
    r2_bucket? := some "shorts-bucket", r2_public_url? := some "https://pub.example",
    database_url? := some "postgresql://db", dbConnectOk := true,
    analysis? := some (some sampleSegs),
    shortsDir? := some ["vid1_cool_title_1.mp4"],
    putOk := fun _ => true, commitOk := fun _ => true }

/-- Concrete database holding the row a first run leaves behind for
`vid1_cool_title_1.mp4`. -/
def sampleUploadedDb : Db :=
  [{ video_id := "vid1_short_1", filename := "vid1_cool_title_1.mp4",
     title := "cool title", description := "first part", duration := 4,
     r2_url := some "https://pub.example/videos/vid1_cool_title_1.mp4",
     r2_key := some "videos/vid1_cool_title_1.mp4" }]

/-- The characters of the `.mp4` extension. -/
def mp4Ext : List Char :=
  '.' :: 'm' :: 'p' :: '4' :: []

/-- Environment whose directory holds one file whose last token is not a
numeral, used to exhibit the mid-loop crash. -/
def crashFileEnv : RunEnv :=
  { sampleEnv with
    analysis? := some (some []),
    shortsDir? := some ["a_b_x.mp4"] }

/-- Environment whose directory holds one uploadable file followed by one
crash-inducing file. -/
def crashAfterUploadEnv : RunEnv :=
  { sampleEnv with
    analysis? := some (some []),
    shortsDir? := some ["vid1_cool_title_1.mp4", "vid1_cool_title_x.mp4"] }

/-- Environment in which every object-store put fails, used to exhibit
per-clip failure containment. -/
def failingPutEnv : RunEnv :=
  { sampleEnv with putOk := fun _ => false }

/-- Environment missing exactly the target video identifier. -/
def missingKeyEnv : RunEnv :=
  { sampleEnv with video_id? := none }

/-- C4: for a filename whose last underscore token denotes segment number `n`
(and which has at least three tokens), metadata resolution returns duration 0
and empty description, without raising, whenever `n` exceeds the number of
segments; and when `n` is within range (1 ≤ n ≤ length) it returns the
description of the segment at (one-based) position `n` and duration
`end - start` of that segment. -/
theorem c4_segment_defaults_and_selection (f : String) (segs : List SegmentMeta) (n : Nat)
    (hlen : 3 ≤ (pySplit '_' (removeMp4 f.data)).length)
    (hint : pyInt ((pySplit '_' (removeMp4 f.data)).getLastD []) = some (n : Int)) :
    (segs.length < n →
      get_video_info_from_filename f segs =
        ParseOutcome.parsed ⟨parsedVideoId f, parsedTitle f, "", 0⟩) ∧
    (1 ≤ n → n ≤ segs.length →
      ∃ seg, segs.get? (n - 1) = some seg ∧
        get_video_info_from_filename f segs =
          ParseOutcome.parsed ⟨parsedVideoId f, parsedTitle f, seg.descriptionGet,
            seg.endTime?.getD 0 - seg.startTime?.getD 0⟩) := by
  have hnlt : ¬ (pySplit '_' (removeMp4 f.data)).length < 3 := by omega
  constructor
  · intro hgt
    have hnle : ¬ ((n : Int) ≤ (segs.length : Int)) := by omega
    simp only [get_video_info_from_filename, if_neg hnlt, hint, if_neg hnle,
      parsedVideoId, parsedTitle]
  · intro h1 h2
    have hle : ((n : Int) ≤ (segs.length : Int)) := by exact_mod_cast h2
    cases hget : segs.get? (n - 1) with
    | none =>
      exact absurd (List.get?_eq_none.mp hget) (by omega)
    | some seg =>
      have hp : pyListGet segs ((n : Int) - 1) = some seg := by
        unfold pyListGet
        rw [if_pos (by omega : (0 : Int) ≤ (n : Int) - 1)]
        have htn : ((n : Int) - 1).toNat = n - 1 := by omega
        rw [htn]
        exact hget
      refine ⟨seg, rfl, ?_⟩
      simp only [get_video_info_from_filename, if_neg hnlt, hint, if_pos hle, hp,
        parsedVideoId, parsedTitle, SegmentMeta.descriptionGet, SegmentMeta.durationGet]

/-- Witness for C4 at a concrete input: filename `a_b_2.mp4` against the two
sample segments selects the second segment. -/
theorem c4_witness :
    (sampleSegs.length < 2 →
      get_video_info_from_filename "a_b_2.mp4" sampleSegs =
        ParseOutcome.parsed ⟨parsedVideoId "a_b_2.mp4", parsedTitle "a_b_2.mp4", "", 0⟩) ∧
    (1 ≤ 2 → 2 ≤ sampleSegs.length →
      ∃ seg, sampleSegs.get? (2 - 1) = some seg ∧
        get_video_info_from_filename "a_b_2.mp4" sampleSegs =
          ParseOutcome.parsed ⟨parsedVideoId "a_b_2.mp4", parsedTitle "a_b_2.mp4",
            seg.descriptionGet, seg.endTime?.getD 0 - seg.startTime?.getD 0⟩) :=
  c4_segment_defaults_and_selection "a_b_2.mp4" sampleSegs 2 (by decide) (by decide)

/-- C9: a filename whose last underscore token is `0` is treated as within
range whenever the segment list is non-empty, and resolution returns the
description and duration of the last segment (Python index -1), not the
defaults. -/
theorem c9_segment_zero_reads_last_segment (f : String) (segs : List SegmentMeta)
    (hlen : 3 ≤ (pySplit '_' (removeMp4 f.data)).length)
    (hint : pyInt ((pySplit '_' (removeMp4 f.data)).getLastD []) = some 0)
    (hne : segs ≠ []) :
    ∃ seg, segs.getLast? = some seg ∧
      get_video_info_from_filename f segs =
        ParseOutcome.parsed ⟨parsedVideoId f, parsedTitle f, seg.descriptionGet,
          seg.durationGet⟩ := by
  have hpos : 0 < segs.length := List.length_pos.mpr hne
  have hnlt : ¬ (pySplit '_' (removeMp4 f.data)).length < 3 := by omega
  cases hget : segs.get? (segs.length - 1) with
  | none =>
    exact absurd (List.get?_eq_none.mp hget) (by omega)
  | some seg =>
    have hlast : segs.getLast? = some seg := by
      rw [List.getLast?_eq_getElem?, ← List.get?_eq_getElem?]
      exact hget
    have hp : pyListGet segs ((0 : Int) - 1) = some seg := by
      unfold pyListGet
      rw [if_neg (by omega : ¬ (0 : Int) ≤ (0 : Int) - 1),
        if_pos (by omega : (0 : Int) ≤ (segs.length : Int) + ((0 : Int) - 1))]
      have htn : ((segs.length : Int) + ((0 : Int) - 1)).toNat = segs.length - 1 := by omega
      rw [htn]
      exact hget
    have hle : ((0 : Int) ≤ (segs.length : Int)) := by omega
    refine ⟨seg, hlast, ?_⟩
    simp only [get_video_info_from_filename, if_neg hnlt, hint, if_pos hle, hp,
      parsedVideoId, parsedTitle]

/-- Witness for C9 at a concrete input: `a_b_0.mp4` against the two sample
segments reads the second (last) segment. -/
theorem c9_witness :
    ∃ seg, sampleSegs.getLast? = some seg ∧
      get_video_info_from_filename "a_b_0.mp4" sampleSegs =
        ParseOutcome.parsed ⟨parsedVideoId "a_b_0.mp4", parsedTitle "a_b_0.mp4",
          seg.descriptionGet, seg.durationGet⟩ :=
  c9_segment_zero_reads_last_segment "a_b_0.mp4" sampleSegs (by decide) (by decide)
    (by decide)

/-- C7: a run that passes configuration, connects, and loads the analysis but
finds zero `.mp4` files completes with zero uploads, exits with status 1, and
performs no object-store call, no database query and no database write. -/
theorem c7_zero_files_exits_failure_without_io (env : RunEnv) (db : Db)
    (segs : List SegmentMeta) (files : List String)
    (hconf : requiredPresent env = true) (hdb : env.dbConnectOk = true)
    (han : env.analysis? = some (some segs)) (hdir : env.shortsDir? = some files)
    (hnone : files.filter (fun f => endsWithMp4 f) = []) :
    upload_shorts env db = RunResult.completed (initialLoopState db) ∧
    exitCode (upload_shorts env db) = 1 ∧
    putCallsOf (upload_shorts env db) = 0 ∧
    queryCallsOf (upload_shorts env db) = 0 ∧
    commitCallsOf (upload_shorts env db) = 0 ∧
    finalDb db (upload_shorts env db) = db := by
  have h : upload_shorts env db = RunResult.completed (initialLoopState db) := by
    simp [upload_shorts, hconf, hdb, han, hdir, hnone, runLoop]
  refine ⟨h, ?_, ?_, ?_, ?_, ?_⟩ <;> rw [h] <;> rfl

/-- Witness for C7 at a concrete input: a directory containing only
`notes.txt`. -/
theorem c7_witness :
    upload_shorts { sampleEnv with shortsDir? := some ["notes.txt"] } [] =
      RunResult.completed (initialLoopState []) ∧
    exitCode (upload_shorts { sampleEnv with shortsDir? := some ["notes.txt"] } []) = 1 ∧
    putCallsOf (upload_shorts { sampleEnv with shortsDir? := some ["notes.txt"] } []) = 0 ∧
    queryCallsOf (upload_shorts { sampleEnv with shortsDir? := some ["notes.txt"] } []) = 0 ∧
    commitCallsOf (upload_shorts { sampleEnv with shortsDir? := some ["notes.txt"] } []) = 0 ∧
    finalDb [] (upload_shorts { sampleEnv with shortsDir? := some ["notes.txt"] } []) = [] :=
  c7_zero_files_exits_failure_without_io { sampleEnv with shortsDir? := some ["notes.txt"] }
    [] sampleSegs ["notes.txt"] (by decide) (by decide) (by decide) (by decide) (by decide)

/-- C10: when configuration passes and the database connects, a missing or
invalid analysis sidecar aborts the whole run (an uncaught exception, exit
status 1) before the clip directory is even listed and before any
object-store or database call; the session is left unclosed. -/
theorem c10_analysis_sidecar_mandatory (env : RunEnv) (db : Db)
    (hconf : requiredPresent env = true) (hdb : env.dbConnectOk = true)
    (han : env.analysis? = none ∨ env.analysis? = some none) :
    upload_shorts env db = RunResult.analysisCrash ∧
    exitCode (upload_shorts env db) = 1 ∧
    putCallsOf (upload_shorts env db) = 0 ∧
    queryCallsOf (upload_shorts env db) = 0 ∧
    commitCallsOf (upload_shorts env db) = 0 ∧
    finalDb db (upload_shorts env db) = db ∧
    sessionClosed (upload_shorts env db) = false := by
  have hmain : upload_shorts env db = RunResult.analysisCrash := by
    rcases han with h | h <;> simp [upload_shorts, hconf, hdb, h]
  exact ⟨hmain, by rw [hmain]; rfl, by rw [hmain]; rfl, by rw [hmain]; rfl,
    by rw [hmain]; rfl, by rw [hmain]; rfl, by rw [hmain]; rfl⟩

/-- Witness for C10 at a concrete input: the sample environment with an
invalid-JSON sidecar.  Since the theorem holds for every value of
`shortsDir?`, the abort provably precedes the directory listing. -/
theorem c10_witness :
    upload_shorts { sampleEnv with analysis? := some none } [] = RunResult.analysisCrash ∧
    exitCode (upload_shorts { sampleEnv with analysis? := some none } []) = 1 ∧
    putCallsOf (upload_shorts { sampleEnv with analysis? := some none } []) = 0 ∧
    queryCallsOf (upload_shorts { sampleEnv with analysis? := some none } []) = 0 ∧
    commitCallsOf (upload_shorts { sampleEnv with analysis? := some none } []) = 0 ∧
    finalDb [] (upload_shorts { sampleEnv with analysis? := some none } []) = [] ∧
    sessionClosed (upload_shorts { sampleEnv with analysis? := some none } []) = false :=
  c10_analysis_sidecar_mandatory { sampleEnv with analysis? := some none } []
    (by decide) (by decide) (Or.inr (by decide))

/-- C2 is refuted as stated: metadata resolution can raise an uncaught
exception that crashes the run.  On `a_b_x.mp4` — three underscore tokens
whose last token is not a decimal numeral — `int(parts[-1])` raises
`ValueError` outside any `try` block, and a run whose directory contains that
file dies mid-loop. -/
theorem c2_counterexample_unparseable_int_crashes :
    get_video_info_from_filename "a_b_x.mp4" [] = ParseOutcome.raised ∧
    upload_shorts crashFileEnv [] = RunResult.loopCrash (initialLoopState []) := by
  decide

/-- C5 is refuted as stated: a run can record an upload and still exit with
status 1.  With files `vid1_cool_title_1.mp4` (uploads successfully) and
`vid1_cool_title_x.mp4` (crashes the loop with an uncaught `ValueError`), the
uploaded count is 1 yet the process dies with exit status 1. -/
theorem c5_counterexample_crash_after_successful_upload :
    uploadedOf (upload_shorts crashAfterUploadEnv []) = 1 ∧
    exitCode (upload_shorts crashAfterUploadEnv []) = 1 := by
  decide

/-- C6 is refuted as stated: the configuration error is the fixed message of
line 73, which names no environment variable, so it does not identify every
missing key.  Shown on an environment missing exactly `VIDEO_ID` and one
missing exactly `R2_BUCKET`. -/
theorem c6_counterexample_error_names_no_keys :
    missingRequiredKeys { sampleEnv with video_id? := none } = ["VIDEO_ID"] ∧
    upload_shorts { sampleEnv with video_id? := none } [] = RunResult.configExit ∧
    containsSub configErrorMessage.data "VIDEO_ID".data = false ∧
    missingRequiredKeys { sampleEnv with r2_bucket? := none } = ["R2_BUCKET"] ∧
    upload_shorts { sampleEnv with r2_bucket? := none } [] = RunResult.configExit ∧
    containsSub configErrorMessage.data "R2_BUCKET".data = false := by decide

/-- C8 is refuted as stated: `session.close()` is not in a `finally` block,
so an execution that reaches the loop and hits an uncaught parse exception
(here on `a_b_x.mp4`) terminates with the session opened but never closed. -/
theorem c8_counterexample_crash_skips_session_close :
    upload_shorts crashFileEnv sampleUploadedDb =
      RunResult.loopCrash (initialLoopState sampleUploadedDb) ∧
    sessionOpened (upload_shorts crashFileEnv sampleUploadedDb) = true ∧
    sessionClosed (upload_shorts crashFileEnv sampleUploadedDb) = false := by
  decide

/-- Helper for C1: over a block of files that would each be skipped, the loop
finishes, leaving the database, the object store, the upload and failure
counters, and the put and commit call counts unchanged, while the skipped
counter grows by the number of files. -/
theorem runLoop_all_skip (env : RunEnv) (segs : List SegmentMeta) :
    ∀ (files : List String) (st : LoopState),
      files.all (clipWouldSkip st.db segs) = true →
      ∃ s, runLoop env segs st files = RunLoopResult.finished s ∧
        s.db = st.db ∧ s.store = st.store ∧ s.uploaded = st.uploaded ∧
        s.failed = st.failed ∧ s.putCalls = st.putCalls ∧
        s.commitCalls = st.commitCalls ∧ s.skipped = st.skipped + files.length := by
  intro files
  induction files with
  | nil =>
    intro st _
    exact ⟨st, rfl, rfl, rfl, rfl, rfl, rfl, rfl, by simp⟩
  | cons f fs ih =>
    intro st h
    rw [List.all_cons, Bool.and_eq_true] at h
    obtain ⟨hf, hfs⟩ := h
    cases hp : get_video_info_from_filename f segs with
    | raised =>
      simp [clipWouldSkip, hp] at hf
    | noneRes =>
      have hstep : processClip env segs st f =
          ClipStep.ok { st with skipped := st.skipped + 1 } := by
        simp [processClip, hp]
      obtain ⟨s, hs, h1, h2, h3, h4, h5, h6, h7⟩ :=
        ih { st with skipped := st.skipped + 1 } (by simpa using hfs)
      refine ⟨s, ?_, by simpa using h1, by simpa using h2, by simpa using h3,
        by simpa using h4, by simpa using h5, by simpa using h6, ?_⟩
      · simp only [runLoop, hstep]
        exact hs
      · simp only at h7
        simp [h7]
        omega
    | parsed info =>
      simp only [clipWouldSkip, hp] at hf
      rcases hfind : dbFind st.db (info.video_id ++ "_short_" ++ shortsFilenameSuffix f)
        with _ | row
      · simp [alreadyUploadedInDb, hfind] at hf
      · simp only [alreadyUploadedInDb, hfind, Option.map_some', Option.getD_some] at hf
        have hstep : processClip env segs st f =
            ClipStep.ok { st with queryCalls := st.queryCalls + 1, skipped := st.skipped + 1 } := by
          simp [processClip, hp, hfind, hf]
        obtain ⟨s, hs, h1, h2, h3, h4, h5, h6, h7⟩ :=
          ih { st with queryCalls := st.queryCalls + 1, skipped := st.skipped + 1 }
            (by simpa using hfs)
        refine ⟨s, ?_, by simpa using h1, by simpa using h2, by simpa using h3,
          by simpa using h4, by simpa using h5, by simpa using h6, ?_⟩
        · simp only [runLoop, hstep]
          exact hs
        · simp only at h7
          simp [h7]
          omega

/-- C1: with the database state a successful first run leaves behind — every
parsed clip's row found by its derived clip identifier and carrying a
non-empty storage URL, the remaining files being the unparseable ones the
loop skips — a second run of the upload loop over the same files performs
zero uploads (no put calls, store unchanged), writes nothing to the database
(no commit calls, rows unchanged, hence no duplicates), fails nothing, and
records every file as skipped. -/
theorem c1_second_run_is_idempotent_noop (env : RunEnv) (segs : List SegmentMeta)
    (db : Db) (files : List String)
    (h : files.all (clipWouldSkip db segs) = true) :
    ∃ s, runLoop env segs (initialLoopState db) files = RunLoopResult.finished s ∧
      s.uploaded = 0 ∧ s.db = db ∧ s.store = [] ∧ s.putCalls = 0 ∧
      s.commitCalls = 0 ∧ s.failed = 0 ∧ s.skipped = files.length := by
  obtain ⟨s, hs, h1, h2, h3, h4, h5, h6, h7⟩ :=
    runLoop_all_skip env segs files (initialLoopState db)
      (by simpa [initialLoopState] using h)
  refine ⟨s, hs, by simpa [initialLoopState] using h3,
    by simpa [initialLoopState] using h1, by simpa [initialLoopState] using h2,
    by simpa [initialLoopState] using h5, by simpa [initialLoopState] using h6,
    by simpa [initialLoopState] using h4, by simpa [initialLoopState] using h7⟩

/-- Witness for C1 at a concrete input: re-running the loop on the file the
sample database already records as uploaded. -/
theorem c1_witness :
    ["vid1_cool_title_1.mp4"].all (clipWouldSkip sampleUploadedDb sampleSegs) = true ∧
    ∃ s, runLoop sampleEnv sampleSegs (initialLoopState sampleUploadedDb)
        ["vid1_cool_title_1.mp4"] = RunLoopResult.finished s ∧
      s.uploaded = 0 ∧ s.db = sampleUploadedDb ∧ s.store = [] ∧ s.putCalls = 0 ∧
      s.commitCalls = 0 ∧ s.failed = 0 ∧ s.skipped = ["vid1_cool_title_1.mp4"].length :=
  ⟨by decide, c1_second_run_is_idempotent_noop sampleEnv sampleSegs sampleUploadedDb
    ["vid1_cool_title_1.mp4"] (by decide)⟩

/-- Helper for C3: when the put call fails, or the put succeeds and the
commit fails, the clip handler increments only the failed counter and leaves
the database exactly as it was (the rollback of line 180). -/
theorem uploadAndUpsert_failure (env : RunEnv) (st : LoopState) (f : String)
    (info : VideoInfo) (sid : String) (ex : Option DbRow)
    (hfail : env.putOk f = false ∨ env.commitOk f = false) :
    (uploadAndUpsert env st f info sid ex).failed = st.failed + 1 ∧
    (uploadAndUpsert env st f info sid ex).db = st.db ∧
    (uploadAndUpsert env st f info sid ex).uploaded = st.uploaded ∧
    (uploadAndUpsert env st f info sid ex).skipped = st.skipped := by
  cases hput : env.putOk f with
  | false => simp [uploadAndUpsert, hput]
  | true =>
    have hcommit : env.commitOk f = false := by
      rcases hfail with h | h
      · rw [hput] at h
        exact absurd h (by simp)
      · exact h
    simp [uploadAndUpsert, hput, hcommit]

/-- C3: a clip that parses and is not already uploaded, but whose object-store
put or whose database commit fails, is counted as failed, leaves the database
unchanged (the per-clip transaction is rolled back, so no partial row
remains), and the loop simply continues with the remaining files — one clip's
failure never aborts the run. -/
theorem c3_per_clip_failure_is_contained (env : RunEnv) (segs : List SegmentMeta)
    (st : LoopState) (f : String) (rest : List String) (info : VideoInfo)
    (hparse : get_video_info_from_filename f segs = ParseOutcome.parsed info)
    (hnot : alreadyUploadedInDb st.db
      (info.video_id ++ "_short_" ++ shortsFilenameSuffix f) = false)
    (hfail : env.putOk f = false ∨ env.commitOk f = false) :
    ∃ s, processClip env segs st f = ClipStep.ok s ∧
      s.failed = st.failed + 1 ∧ s.uploaded = st.uploaded ∧
      s.skipped = st.skipped ∧ s.db = st.db ∧
      runLoop env segs st (f :: rest) = runLoop env segs s rest := by
  rcases hfind : dbFind st.db (info.video_id ++ "_short_" ++ shortsFilenameSuffix f)
    with _ | row
  · have hstep : processClip env segs st f =
        ClipStep.ok (uploadAndUpsert env { st with queryCalls := st.queryCalls + 1 }
          f info (info.video_id ++ "_short_" ++ shortsFilenameSuffix f) none) := by
      simp [processClip, hparse, hfind]
    obtain ⟨h1, h2, h3, h4⟩ :=
      uploadAndUpsert_failure env { st with queryCalls := st.queryCalls + 1 } f info
        (info.video_id ++ "_short_" ++ shortsFilenameSuffix f) none hfail
    refine ⟨_, hstep, by simpa using h1, by simpa using h3, by simpa using h4,
      by simpa using h2, ?_⟩
    simp only [runLoop, hstep]
  · have hurl : pyTruthyStr row.r2_url = false := by
      simpa [alreadyUploadedInDb, hfind] using hnot
    have hstep : processClip env segs st f =
        ClipStep.ok (uploadAndUpsert env { st with queryCalls := st.queryCalls + 1 }
          f info (info.video_id ++ "_short_" ++ shortsFilenameSuffix f) (some row)) := by
      simp [processClip, hparse, hfind, hurl]
    obtain ⟨h1, h2, h3, h4⟩ :=
      uploadAndUpsert_failure env { st with queryCalls := st.queryCalls + 1 } f info
        (info.video_id ++ "_short_" ++ shortsFilenameSuffix f) (some row) hfail
    refine ⟨_, hstep, by simpa using h1, by simpa using h3, by simpa using h4,
      by simpa using h2, ?_⟩
    simp only [runLoop, hstep]

/-- Witness for C3 at a concrete input: the sample clip against an empty
database in the environment whose put call always fails. -/
theorem c3_witness :
    ∃ s, processClip failingPutEnv sampleSegs (initialLoopState [])
        "vid1_cool_title_1.mp4" = ClipStep.ok s ∧
      s.failed = (initialLoopState []).failed + 1 ∧
      s.uploaded = (initialLoopState []).uploaded ∧
      s.skipped = (initialLoopState []).skipped ∧
      s.db = (initialLoopState []).db ∧
      runLoop failingPutEnv sampleSegs (initialLoopState [])
          ("vid1_cool_title_1.mp4" :: []) =
        runLoop failingPutEnv sampleSegs s [] :=
  c3_per_clip_failure_is_contained failingPutEnv sampleSegs (initialLoopState [])
    "vid1_cool_title_1.mp4" []
    { video_id := "vid1", title := "cool title", description := "first part",
      duration := 4 }
    (by decide) (by decide) (Or.inl (by decide))

/-- C5 amended: the exit status is 0 exactly when the run completes its loop
normally with at least one recorded upload; every run that records zero
uploads — abort paths included — exits with status 1.  (A run that crashes
mid-loop exits 1 even when uploads already succeeded.) -/
theorem c5_amended_exit_zero_iff_completed_with_upload (env : RunEnv) (db : Db) :
    (exitCode (upload_shorts env db) = 0 ↔
      ∃ s, upload_shorts env db = RunResult.completed s ∧ 0 < s.uploaded) ∧
    (uploadedOf (upload_shorts env db) = 0 → exitCode (upload_shorts env db) = 1) := by
  rcases hr : upload_shorts env db with _ | _ | _ | _ | s | s <;>
    simp only [exitCode, uploadedOf] <;>
    constructor
  · simp
  · simp
  · simp
  · simp
  · simp
  · simp
  · simp
  · simp
  · simp
  · simp
  · by_cases h : 0 < s.uploaded <;> simp [h]
  · intro h
    rw [if_neg (by omega)]

/-- C6 helper: the line-72 check fails exactly when at least one required
key is absent or empty. -/
theorem requiredPresent_false_iff (env : RunEnv) :
    requiredPresent env = false ↔ missingRequiredKeys env ≠ [] := by
  simp only [requiredPresent, missingRequiredKeys, requiredKeyNames]
  cases h1 : pyTruthyStr env.video_id? <;>
    cases h2 : pyTruthyStr env.r2_access_key? <;>
    cases h3 : pyTruthyStr env.r2_secret_key? <;>
    cases h4 : pyTruthyStr env.r2_endpoint? <;>
    cases h5 : pyTruthyStr env.r2_bucket? <;>
    cases h6 : pyTruthyStr env.database_url? <;>
    simp [h1, h2, h3, h4, h5, h6, List.filter]

/-- C6 helper: the fixed error message printed when configuration is missing
names none of the required keys. -/
theorem missingRequiredKeys_not_named (env : RunEnv) :
    ∀ k ∈ missingRequiredKeys env,
      containsSub configErrorMessage.data k.data = false := by
  intro k hk
  simp only [missingRequiredKeys, List.mem_map] at hk
  obtain ⟨p, hp, rfl⟩ := hk
  have hp' : p ∈ requiredKeyNames := List.mem_of_mem_filter hp
  simp only [requiredKeyNames, List.mem_cons, List.mem_singleton,
    List.not_mem_nil, or_false] at hp'
  rcases hp' with rfl | rfl | rfl | rfl | rfl | rfl <;> decide

/-- C6 amended: when any required configuration value is absent or empty the
run exits immediately (before the session is created and before any
object-store or database call), but with the fixed generic message of line
73, which does not name any of the missing keys. -/
theorem c6_amended_fail_fast_with_generic_message (env : RunEnv) (db : Db)
    (h : requiredPresent env = false) :
    upload_shorts env db = RunResult.configExit ∧
    missingRequiredKeys env ≠ [] ∧
    (∀ k ∈ missingRequiredKeys env,
      containsSub configErrorMessage.data k.data = false) ∧
    putCallsOf (upload_shorts env db) = 0 ∧
    queryCallsOf (upload_shorts env db) = 0 ∧
    commitCallsOf (upload_shorts env db) = 0 ∧
    sessionOpened (upload_shorts env db) = false ∧
    exitCode (upload_shorts env db) = 1 := by
  have hmain : upload_shorts env db = RunResult.configExit := by
    simp [upload_shorts, h]
  exact ⟨hmain, (requiredPresent_false_iff env).mp h,
    missingRequiredKeys_not_named env, by rw [hmain]; rfl, by rw [hmain]; rfl,
    by rw [hmain]; rfl, by rw [hmain]; rfl, by rw [hmain]; rfl⟩

/-- Witness for the amended C6 at a concrete input: the environment missing
exactly the target video identifier. -/
theorem c6_amended_witness :
    upload_shorts missingKeyEnv [] = RunResult.configExit ∧
    missingRequiredKeys missingKeyEnv ≠ [] ∧
    (∀ k ∈ missingRequiredKeys missingKeyEnv,
      containsSub configErrorMessage.data k.data = false) ∧
    putCallsOf (upload_shorts missingKeyEnv []) = 0 ∧
    queryCallsOf (upload_shorts missingKeyEnv []) = 0 ∧
    commitCallsOf (upload_shorts missingKeyEnv []) = 0 ∧
    sessionOpened (upload_shorts missingKeyEnv []) = false ∧
    exitCode (upload_shorts missingKeyEnv []) = 1 :=
  c6_amended_fail_fast_with_generic_message missingKeyEnv [] (by decide)

/-- Helper: a decimal digit is not an underscore, a dot, a sign character,
or whitespace. -/
theorem char_digit_facts (c : Char) (h : c.isDigit = true) :
    c ≠ '_' ∧ c ≠ '.' ∧ c ≠ '-' ∧ c ≠ '+' ∧ isPyWhitespace c = false := by
  refine ⟨?_, ?_, ?_, ?_, ?_⟩
  · rintro rfl
    exact absurd h (by decide)
  · rintro rfl
    exact absurd h (by decide)
  · rintro rfl
    exact absurd h (by decide)
  · rintro rfl
    exact absurd h (by decide)
  · cases hw : isPyWhitespace c with
    | false => rfl
    | true =>
      exfalso
      simp only [isPyWhitespace, Bool.or_eq_true, beq_iff_eq] at hw
      rcases hw with ((((rfl | rfl) | rfl) | rfl) | rfl) | rfl <;>
        exact absurd h (by decide)

/-- Helper: an all-digit token contains neither an underscore nor a dot. -/
theorem digits_no_special (l : List Char) (h : l.all Char.isDigit = true) :
    '_' ∉ l ∧ '.' ∉ l := by
  refine ⟨fun hm => ?_, fun hm => ?_⟩
  · exact absurd (List.all_eq_true.mp h _ hm) (by decide)
  · exact absurd (List.all_eq_true.mp h _ hm) (by decide)

/-- Helper: dropping leading whitespace from an all-digit token is the
identity. -/
theorem dropWhile_ws_of_digits (l : List Char) (h : l.all Char.isDigit = true) :
    l.dropWhile isPyWhitespace = l := by
  cases l with
  | nil => rfl
  | cons c rest =>
    rw [List.all_cons, Bool.and_eq_true] at h
    rw [List.dropWhile_cons, if_neg (by simp [(char_digit_facts c h.1).2.2.2.2])]

/-- Helper: stripping whitespace from an all-digit token is the identity. -/
theorem stripWs_of_digits (l : List Char) (h : l.all Char.isDigit = true) :
    stripWs l = l := by
  unfold stripWs
  rw [dropWhile_ws_of_digits l h, dropWhile_ws_of_digits l.reverse (by simpa using h),
    List.reverse_reverse]

/-- Helper: Python `int()` on a non-empty all-digit token yields its decimal
value. -/
theorem pyInt_of_digits (l : List Char) (hne : l ≠ []) (h : l.all Char.isDigit = true) :
    pyInt l = some ((digitsVal l : Nat) : Int) := by
  cases l with
  | nil => exact absurd rfl hne
  | cons c rest =>
    rw [List.all_cons, Bool.and_eq_true] at h
    obtain ⟨hc, hrest⟩ := h
    have hfacts := char_digit_facts c hc
    have hstrip : stripWs (c :: rest) = c :: rest :=
      stripWs_of_digits (c :: rest) (by simp [hc, hrest])
    simp only [pyInt, hstrip, if_neg hfacts.2.2.1, if_neg hfacts.2.2.2.1]
    simp [digitsToNat, hc, hrest]

/-- Helper: splitting a list whose head block is separator-free peels off
that block. -/
theorem pySplit_append_sep (sep : Char) (x rest : List Char) (h : sep ∉ x) :
    pySplit sep (x ++ sep :: rest) = x :: pySplit sep rest := by
  induction x with
  | nil => simp [pySplit]
  | cons c x ih =>
    rw [List.mem_cons, not_or] at h
    have hc : ¬ c = sep := fun e => h.1 e.symm
    simp only [List.cons_append, pySplit, if_neg hc, List.append_eq]
    rw [ih h.2]

/-- Helper: splitting a separator-free list yields that single fragment. -/
theorem pySplit_no_sep (sep : Char) (x : List Char) (h : sep ∉ x) :
    pySplit sep x = [x] := by
  induction x with
  | nil => rfl
  | cons c x ih =>
    rw [List.mem_cons, not_or] at h
    have hc : ¬ c = sep := fun e => h.1 e.symm
    simp only [pySplit, if_neg hc]
    rw [ih h.2]

/-- Helper: splitting undoes joining when every fragment is separator-free. -/
theorem pySplit_pyJoin (sep : Char) (parts : List (List Char)) (hne : parts ≠ [])
    (h : ∀ p ∈ parts, sep ∉ p) : pySplit sep (pyJoin [sep] parts) = parts := by
  induction parts with
  | nil => exact absurd rfl hne
  | cons x xs ih =>
    cases xs with
    | nil =>
      simp only [pyJoin]
      exact pySplit_no_sep sep x (h x (by simp))
    | cons y ys =>
      have heq : pyJoin [sep] (x :: y :: ys) = x ++ sep :: pyJoin [sep] (y :: ys) := by
        simp [pyJoin]
      rw [heq, pySplit_append_sep sep x _ (h x (by simp)),
        ih (by simp) (fun p hp => h p (by simp [hp]))]

/-- Helper: every character of a join comes from the separator or from one of
the fragments. -/
theorem mem_pyJoin (sep : List Char) (parts : List (List Char)) (c : Char)
    (h : c ∈ pyJoin sep parts) : c ∈ sep ∨ ∃ p ∈ parts, c ∈ p := by
  induction parts with
  | nil => simp [pyJoin] at h
  | cons x xs ih =>
    cases xs with
    | nil =>
      simp only [pyJoin] at h
      exact Or.inr ⟨x, by simp, h⟩
    | cons y ys =>
      simp only [pyJoin] at h
      rw [List.mem_append, List.mem_append] at h
      rcases h with (h | h) | h
      · exact Or.inr ⟨x, by simp, h⟩
      · exact Or.inl h
      · rcases ih h with h | ⟨p, hp, hc⟩
        · exact Or.inl h
        · exact Or.inr ⟨p, by simp [hp], hc⟩

/-- Helper: appending to the last fragment commutes with joining. -/
theorem pyJoin_append_last (sep : List Char) :
    ∀ (l : List (List Char)) (a t : List Char),
      pyJoin sep (l ++ [a]) ++ t = pyJoin sep (l ++ [a ++ t])
  | [], a, t => by simp [pyJoin]
  | [x], a, t => by simp [pyJoin, List.append_assoc]
  | x :: y :: xs, a, t => by
    have ih := pyJoin_append_last sep (y :: xs) a t
    simp only [List.cons_append, pyJoin, List.append_eq] at ih ⊢
    rw [List.append_assoc, List.append_assoc, ih]
    simp [List.append_assoc]

/-- Helper: appending to the last fragment commutes with joining, stated on a
cons-shaped fragment list. -/
theorem pyJoin_cons_append_last (sep : List Char) (x : List Char)
    (l : List (List Char)) (a t : List Char) :
    pyJoin sep (x :: l ++ [a]) ++ t = pyJoin sep (x :: l ++ [a ++ t]) :=
  pyJoin_append_last sep (x :: l) a t

/-- Helper: scanning past a character other than a dot cannot start a `.mp4`
match. -/
theorem removeMp4_cons_ne_dot (c : Char) (l : List Char) (h : c ≠ '.') :
    removeMp4 (c :: l) = c :: removeMp4 l := by
  rw [removeMp4.eq_def]
  split
  · simp_all
  · simp_all
  · simp_all

/-- Helper: removing `.mp4` occurrences skips over a dot-free block. -/
theorem removeMp4_append_no_dot (s t : List Char) (h : '.' ∉ s) :
    removeMp4 (s ++ t) = s ++ removeMp4 t := by
  induction s with
  | nil => rfl
  | cons c s ih =>
    rw [List.mem_cons, not_or] at h
    have hc : c ≠ '.' := fun e => h.1 e.symm
    rw [List.cons_append, removeMp4_cons_ne_dot c _ hc, ih h.2]
    rfl

/-- Helper: the extension itself is removed entirely. -/
theorem removeMp4_mp4Ext : removeMp4 mp4Ext = [] := rfl

/-- Helper: the default last element of a cons-append-singleton list is the
singleton. -/
theorem getLastD_cons_append (x : List Char) (tps : List (List Char)) (nd : List Char) :
    (x :: tps ++ [nd]).getLastD ([] : List Char) = nd :=
  List.getLastD_concat [] nd (x :: tps)

/-- Helper: full characterization of the parser on a filename whose stripped
split is `first :: interior ++ [numeral]` with a positive numeric last token:
it never raises, the video id is the first token, the title is the interior
joined with spaces, and description and duration come from the chosen segment
or default. -/
theorem get_video_info_eq_of_parts (f : String) (segs : List SegmentMeta)
    (x nd : List Char) (tps : List (List Char)) (htps : tps ≠ [])
    (hsplit : pySplit '_' (removeMp4 f.data) = x :: tps ++ [nd])
    (v : Nat) (hint : pyInt nd = some (v : Int)) (hv : 1 ≤ v) :
    (v ≤ segs.length → ∃ seg, segs.get? (v - 1) = some seg ∧
      get_video_info_from_filename f segs =
        ParseOutcome.parsed ⟨String.mk x, String.mk (pyJoin [' '] tps),
          seg.descriptionGet, seg.durationGet⟩) ∧
    (segs.length < v →
      get_video_info_from_filename f segs =
        ParseOutcome.parsed ⟨String.mk x, String.mk (pyJoin [' '] tps), "", 0⟩) := by
  have hlen3 : ¬ (pySplit '_' (removeMp4 f.data)).length < 3 := by
    have htl : 0 < tps.length := List.length_pos.mpr htps
    rw [hsplit]
    simp only [List.length_cons, List.length_append, List.length_singleton]
    omega
  have hhead : (pySplit '_' (removeMp4 f.data)).headD [] = x := by
    rw [hsplit]
    rfl
  have hlast : (pySplit '_' (removeMp4 f.data)).getLastD [] = nd := by
    rw [hsplit]
    exact getLastD_cons_append x tps nd
  have hmid : ((pySplit '_' (removeMp4 f.data)).drop 1).dropLast = tps := by
    rw [hsplit]
    simp [List.dropLast_concat]
  constructor
  · intro hle
    have hcast : ((v : Int)) ≤ (segs.length : Int) := by exact_mod_cast hle
    cases hget : segs.get? (v - 1) with
    | none =>
      exact absurd (List.get?_eq_none.mp hget) (by omega)
    | some seg =>
      have hp : pyListGet segs ((v : Int) - 1) = some seg := by
        unfold pyListGet
        rw [if_pos (by omega : (0 : Int) ≤ (v : Int) - 1)]
        have htn : ((v : Int) - 1).toNat = v - 1 := by omega
        rw [htn]
        exact hget
      refine ⟨seg, rfl, ?_⟩
      simp only [get_video_info_from_filename, if_neg hlen3, hhead, hlast, hmid,
        hint, if_pos hcast, hp]
  · intro hgt
    have hcast : ¬ ((v : Int)) ≤ (segs.length : Int) := by omega
    simp only [get_video_info_from_filename, if_neg hlen3, hhead, hlast, hmid,
      hint, if_neg hcast]

/-- C2 amended: for every well-formed filename
`{id}_{t1}_..._{tk}_{n}.mp4` — separator-free, dot-free tokens, a non-empty
interior, and a last token that is a non-empty digit string denoting a
positive segment number — resolution succeeds without raising, returning the
first token as the video id and the interior tokens joined by spaces as the
title, and the derived clip-identifier suffix (the segment token) is exactly
`n`; every filename whose stripped split has fewer than three tokens resolves
to `None` and is recorded by the loop as skipped.  (The unamended claim's
"never raises for any input filename" is dropped: a non-numeric last token
raises an uncaught exception, see the counterexample.) -/
theorem c2_amended_filename_resolution (id n : String) (titleParts : List String)
    (segs : List SegmentMeta) (fn : String)
    (hid : '_' ∉ id.data ∧ '.' ∉ id.data)
    (htp : titleParts ≠ [])
    (ht : ∀ t ∈ titleParts, '_' ∉ t.data ∧ '.' ∉ t.data)
    (hn1 : n.data ≠ []) (hn2 : n.data.all Char.isDigit = true)
    (hpos : 1 ≤ digitsVal n.data)
    (hfn : fn.data =
      pyJoin ['_'] (id.data :: titleParts.map String.data ++ [n.data]) ++ mp4Ext) :
    (∃ d dur, get_video_info_from_filename fn segs =
      ParseOutcome.parsed ⟨id, String.mk (pyJoin [' '] (titleParts.map String.data)),
        d, dur⟩) ∧
    shortsFilenameSuffix fn = n ∧
    (∀ (f : String) (segs2 : List SegmentMeta) (env : RunEnv) (st : LoopState),
      (pySplit '_' (removeMp4 f.data)).length < 3 →
      get_video_info_from_filename f segs2 = ParseOutcome.noneRes ∧
      processClip env segs2 st f = ClipStep.ok { st with skipped := st.skipped + 1 }) := by
  have hdigU : '_' ∉ n.data := (digits_no_special n.data hn2).1
  have hdigD : '.' ∉ n.data := (digits_no_special n.data hn2).2
  have hpartsDot : ∀ p ∈ (id.data :: titleParts.map String.data ++ [n.data]), '.' ∉ p := by
    intro p hp
    rcases List.mem_cons.mp hp with rfl | hp
    · exact hid.2
    · rcases List.mem_append.mp hp with hp | hp
      · obtain ⟨t, ht', rfl⟩ := List.mem_map.mp hp
        exact (ht t ht').2
      · rw [List.mem_singleton] at hp
        subst hp
        exact hdigD
  have hpartsU : ∀ p ∈ (id.data :: titleParts.map String.data ++ [n.data]), '_' ∉ p := by
    intro p hp
    rcases List.mem_cons.mp hp with rfl | hp
    · exact hid.1
    · rcases List.mem_append.mp hp with hp | hp
      · obtain ⟨t, ht', rfl⟩ := List.mem_map.mp hp
        exact (ht t ht').1
      · rw [List.mem_singleton] at hp
        subst hp
        exact hdigU
  have hnodot : '.' ∉ pyJoin ['_'] (id.data :: titleParts.map String.data ++ [n.data]) := by
    intro hmem
    rcases mem_pyJoin _ _ _ hmem with h | ⟨p, hp, hc⟩
    · simp at h
    · exact hpartsDot p hp hc
  have hbody : removeMp4 fn.data =
      pyJoin ['_'] (id.data :: titleParts.map String.data ++ [n.data]) := by
    rw [hfn, removeMp4_append_no_dot _ _ hnodot, removeMp4_mp4Ext, List.append_nil]
  have htpsne : titleParts.map String.data ≠ [] := by
    simpa using htp
  have hsplit : pySplit '_' (removeMp4 fn.data) =
      id.data :: titleParts.map String.data ++ [n.data] := by
    rw [hbody]
    exact pySplit_pyJoin '_' _ (by simp) hpartsU
  have hint : pyInt n.data = some ((digitsVal n.data : Nat) : Int) :=
    pyInt_of_digits n.data hn1 hn2
  obtain ⟨hin, hout⟩ := get_video_info_eq_of_parts fn segs id.data n.data
    (titleParts.map String.data) htpsne hsplit (digitsVal n.data) hint hpos
  refine ⟨?_, ?_, ?_⟩
  · by_cases hc : digitsVal n.data ≤ segs.length
    · obtain ⟨seg, _, hres⟩ := hin hc
      exact ⟨seg.descriptionGet, seg.durationGet, by rw [hres]⟩
    · exact ⟨"", 0, by rw [hout (by omega)]⟩
  · have hrawsplit : pySplit '_' fn.data =
        id.data :: titleParts.map String.data ++ [n.data ++ mp4Ext] := by
      rw [hfn, show pyJoin ['_'] (id.data :: titleParts.map String.data ++ [n.data]) ++ mp4Ext =
        pyJoin ['_'] (id.data :: titleParts.map String.data ++ [n.data ++ mp4Ext]) from
        pyJoin_cons_append_last ['_'] id.data (titleParts.map String.data) n.data mp4Ext]
      refine pySplit_pyJoin '_' _ (by simp) ?_
      intro p hp
      rcases List.mem_cons.mp hp with rfl | hp
      · exact hid.1
      · rcases List.mem_append.mp hp with hp | hp
        · obtain ⟨t, ht', rfl⟩ := List.mem_map.mp hp
          exact (ht t ht').1
        · rw [List.mem_singleton] at hp
          subst hp
          intro hmem
          rcases List.mem_append.mp hmem with hmem | hmem
          · exact hdigU hmem
          · simp [mp4Ext] at hmem
    simp only [shortsFilenameSuffix, hrawsplit, getLastD_cons_append,
      removeMp4_append_no_dot _ _ hdigD, removeMp4_mp4Ext, List.append_nil]
  · intro f segs2 env st hlt
    have hparse : get_video_info_from_filename f segs2 = ParseOutcome.noneRes := by
      simp only [get_video_info_from_filename, if_pos hlt]
    exact ⟨hparse, by simp [processClip, hparse]⟩

/-- Witness for the amended C2 at a concrete input:
`vid1_cool_title_2.mp4` with id `vid1`, interior `cool`, `title`, numeral
`2`. -/
theorem c2_amended_witness :
    (∃ d dur, get_video_info_from_filename "vid1_cool_title_2.mp4" sampleSegs =
      ParseOutcome.parsed ⟨"vid1",
        String.mk (pyJoin [' '] ((["cool", "title"] : List String).map String.data)),
        d, dur⟩) ∧
    shortsFilenameSuffix "vid1_cool_title_2.mp4" = "2" ∧
    (∀ (f : String) (segs2 : List SegmentMeta) (env : RunEnv) (st : LoopState),
      (pySplit '_' (removeMp4 f.data)).length < 3 →
      get_video_info_from_filename f segs2 = ParseOutcome.noneRes ∧
      processClip env segs2 st f = ClipStep.ok { st with skipped := st.skipped + 1 }) :=
  c2_amended_filename_resolution "vid1" "2" ["cool", "title"] sampleSegs
    "vid1_cool_title_2.mp4" (by decide) (by decide) (by decide) (by decide)
    (by decide) (by decide) (by decide)

/-- C8 amended: the session is created once when the run gets past the
connection step, and it is closed exactly on the runs that finish the loop
normally; any execution that terminates by an uncaught exception after the
session was created — missing analysis file, missing directory, or a
mid-loop parse crash — ends with the session open. -/
theorem c8_amended_close_iff_normal_completion (env : RunEnv) (db : Db) :
    (sessionClosed (upload_shorts env db) = true ↔
      ∃ s, upload_shorts env db = RunResult.completed s) ∧
    (sessionClosed (upload_shorts env db) = true →
      sessionOpened (upload_shorts env db) = true) := by
  rcases hr : upload_shorts env db with _ | _ | _ | _ | s | s <;>
    simp [sessionClosed, sessionOpened]

end ShortUploader
